import Mathlib

/-!
Verification of `src/L5_Application/source/power_wifi.cpp` (NicoleOtsuka/cmpe-244).

Shallow embedding conventions:
* C bytes (`uint8_t`, and plain `char`, which is unsigned on ARM EABI) are `Nat`
  values reduced `% 256` at the points where the C type forces a byte.
* `uint16_t` arithmetic is `Nat` with `% 65536` where the C accumulator wraps;
  `unsigned int` (32-bit) accumulations that provably cannot reach `2^32`
  are kept as plain `Nat` sums, with the bound noted at the definition.
* The external primitives (`mesh_get_node_address`, `wireless_send`,
  `adc0_get_reading`, FreeRTOS queues) are parameters: the node address is an
  argument, send/enqueue success are `Bool` oracles, and the ADC is a stream
  `raw : Nat → Nat` of readings consumed in call order.
* GPIO latches (step / direction / enable pins) are `Bool` fields of the motor
  state; reading `FIOSET`/`FIOPIN` of an output pin returns the latch.
-/

/-! ## Protocol constants (power_wifi.cpp lines 30-41, 54-75) -/

def WIFI_CMD_REQPWR : Nat := 0
def WIFI_CMD_GET_STATUS : Nat := 1
def WIFI_CMD_GIVE_STATUS : Nat := 2
def WIFI_CMD_CTL_DIR : Nat := 3
def WIFI_CMD_TERMINATE : Nat := 4
def WIFI_CMD_SCAN : Nat := 5
def WIFI_CMD_MOVE : Nat := 6

def WIFI_MASTER_ADDR : Nat := 100

def WIFI_MOVE_IDX_PARAM1 : Nat := 1
def WIFI_MOVE_IDX_PARAM2 : Nat := 2

def ADC_AVERAGE_DEPTH : Nat := 2000

/-- `CMD_UNPACK(p)`: `((p) >> 24) & 0xff` (line 72). -/
def CMD_UNPACK (p : Nat) : Nat := (p >>> 24) &&& 0xff

/-- `PARAM1_UNPACK(p)`: `((p) >> 16) & 0xff` (line 73). -/
def PARAM1_UNPACK (p : Nat) : Nat := (p >>> 16) &&& 0xff

/-- `PARAM2_UNPACK(p)`: `((p) >> 8) & 0xff` (line 74). -/
def PARAM2_UNPACK (p : Nat) : Nat := (p >>> 8) &&& 0xff

/-- Conversion of an integer to C `int8_t` (two's complement wrap), used for
the assignments to the `int8_t` variable `steps_todo2` (lines 391, 397). -/
def int8_wrap (v : Int) : Int := (v + 128) % 256 - 128

/-- `adc0_get_reading` returns `uint16_t` (external primitive `adc0.h`);
`raw` is the stream of readings, indexed by how many reads happened before. -/
def adc0_reading (raw : Nat → Nat) (t : Nat) : Nat := raw t % 65536

/-- The ADC-summing loop of `wifi_slave_heartbeat` (lines 104-105) with its
`unsigned short adc` accumulator: each `adc += adc0_get_reading(ADC_PORT)`
truncates back to 16 bits. -/
def adc_accum_u16 (raw : Nat → Nat) : Nat → Nat
  | 0 => 0
  | i + 1 => (adc_accum_u16 raw i + adc0_reading raw i) % 65536

/-- The ADC-summing loop inside the SCAN case of `motion_task` (lines 360-362)
with its `unsigned int adc` accumulator starting after `t` earlier reads.
The sum of `ADC_AVERAGE_DEPTH = 2000` readings, each `< 2^16`, is at most
`2000 * 65535 < 2^32`, so the 32-bit accumulator never wraps and a plain `Nat`
sum is exact. -/
def adc_accum_u32 (raw : Nat → Nat) (t : Nat) : Nat → Nat
  | 0 => 0
  | i + 1 => adc_accum_u32 raw t i + adc0_reading raw (t + i)

/-- `energyArray[energyArray_idx++] = adc / ADC_AVERAGE_DEPTH` (line 363):
the averaged scan sample, starting after `t` earlier ADC reads. -/
def scan_adc_average (raw : Nat → Nat) (t : Nat) : Nat :=
  adc_accum_u32 raw t ADC_AVERAGE_DEPTH / ADC_AVERAGE_DEPTH

/-! ## Protocol-side global state and `wifi_slave_heartbeat` -/

/-- The protocol-side static globals of power_wifi.cpp (lines 77-79, 83).
`position` (line 77) and `busy` (line 78) are declared here and read by
`wifi_slave_heartbeat`, but no function in the file ever writes them;
the motion task maintains the distinct globals `current_pos` / `busy_bit`. -/
structure CommState where
  busy : Nat
  error : Nat
  position : Nat
  slave_boot_up : Bool
deriving DecidableEq, Repr

/-- `wifi_slave_heartbeat` (lines 96-115): sets `error = busy`, averages
`ADC_AVERAGE_DEPTH` ADC readings in a `unsigned short` accumulator, and sends
`[GIVE_STATUS, error, (adc >> 8) & 0xf, adc & 0xff, position]` to the master.
Returns the updated globals and the attempted send `(dest, payload)`;
the `wireless_send` result is ignored by the C code (line 114). -/
def wifi_slave_heartbeat (raw : Nat → Nat) (g : CommState) : CommState × (Nat × List Nat) :=
  let error' := g.busy % 256
  let adc := adc_accum_u16 raw ADC_AVERAGE_DEPTH / ADC_AVERAGE_DEPTH
  ({ g with error := error' },
   (WIFI_MASTER_ADDR,
    [WIFI_CMD_GIVE_STATUS, error', (adc >>> 8) &&& 0xf, adc &&& 0xff, g.position % 256]))

/-- A received mesh packet: source address, `info.data_len` and the `uint8_t`
data buffer (`wireless.h` boundary; the buffer is a total byte map, reads
beyond `data_len` return whatever sits in the fixed-size array). -/
structure MeshPacket where
  src : Nat
  data_len : Nat
  data : Nat → Nat

/-- Everything observable from one `wifi_pkt_decoding` call: the returned
result code, the updated protocol globals, the attempted `wireless_send`s
(destination, payload bytes), the words actually enqueued to `motion_queue`,
and the number of `pr_err` invocations. -/
structure DecodeOut where
  ret : Nat
  st : CommState
  sends : List (Nat × List Nat)
  motions : List Nat
  errs : Nat

/-- `wifi_pkt_decoding` (lines 117-190). `myAddr` models
`mesh_get_node_address()`, `sendOk` the result of `wireless_send`, `queueOk`
the result of `xQueueSend(motion_queue, ...)`; `raw` feeds the ADC reads done
by `wifi_slave_heartbeat` in the GET_STATUS case. The GIVE_STATUS case with a
non-empty payload reads `data[2]`/`data[3]` only for `pr_debug` logging. -/
def wifi_pkt_decoding (myAddr : Nat) (sendOk queueOk : Bool) (raw : Nat → Nat)
    (g : CommState) (pkt : MeshPacket) : DecodeOut :=
  let len := pkt.data_len % 256
  let cmd := pkt.data 0 % 256
  if cmd = WIFI_CMD_REQPWR then
    if myAddr ≠ WIFI_MASTER_ADDR then ⟨0, g, [], [], 0⟩
    else ⟨0, g, [(pkt.src, [WIFI_CMD_GET_STATUS])], [], if sendOk then 0 else 1⟩
  else if cmd = WIFI_CMD_GET_STATUS then
    let g1 := { g with slave_boot_up := true }
    if myAddr = WIFI_MASTER_ADDR then ⟨0, g1, [], [], 0⟩
    else
      let r := wifi_slave_heartbeat raw g1
      ⟨0, r.1, [r.2], [], 0⟩
  else if cmd = WIFI_CMD_GIVE_STATUS then
    if myAddr ≠ WIFI_MASTER_ADDR then ⟨0, g, [], [], 0⟩
    else if len = 0 then ⟨cmd, g, [], [], 1⟩
    else ⟨0, g, [(pkt.src, [WIFI_CMD_SCAN])], [], if sendOk then 0 else 1⟩
  else if cmd = WIFI_CMD_CTL_DIR then ⟨0, g, [], [], 0⟩
  else if cmd = WIFI_CMD_TERMINATE then ⟨0, g, [], [], 0⟩
  else if cmd = WIFI_CMD_MOVE then
    let motion := cmd <<< 24 ||| (pkt.data WIFI_MOVE_IDX_PARAM1 % 256) <<< 16 |||
      (pkt.data WIFI_MOVE_IDX_PARAM2 % 256) <<< 8
    ⟨0, g, [], if queueOk then [motion] else [], if queueOk then 0 else 1⟩
  else if cmd = WIFI_CMD_SCAN then
    let motion := cmd <<< 24
    ⟨0, g, [], if queueOk then [motion] else [], if queueOk then 0 else 1⟩
  else ⟨0, g, [], [], 1⟩

/-- The MOVE packet with first parameter byte `+5` used in C2. -/
def movePktP5 : MeshPacket :=
  ⟨55, 4, fun i => if i = 0 then WIFI_CMD_MOVE else if i = 1 then 5 else 0⟩

/-- The MOVE packet whose first parameter byte `0xfb` encodes `-5`, used in C2. -/
def movePktM5 : MeshPacket :=
  ⟨55, 4, fun i => if i = 0 then WIFI_CMD_MOVE else if i = 1 then 251 else 0⟩

/-! ## Motion-controller state and primitives (lines 240-333) -/

def STEPS_FULL_REV : Nat := 400
def ENERGY_SAMPLES : Nat := 10
def ADC_SAMPLE_PERIOD : Nat := STEPS_FULL_REV / ENERGY_SAMPLES
def STEPS_PER_REV : Nat := 200

def DRIVE_ON : Bool := false
def DRIVE_OFF : Bool := true
def CW : Bool := true
def CCW : Bool := false

/-- The motion-side static globals (lines 266-275) together with the GPIO
output latches of the STEP / DIRECTION / ENABLE pins of `LPC_GPIO2`.
`energyArray` (a `double[ENERGY_SAMPLES*2]`) only ever stores exact small
integers `adc / ADC_AVERAGE_DEPTH`, so its cells are modelled as `Nat`.
The dead test-sequence global `command` (written at line 410, never read)
is represented only by its index `command_idx`. -/
structure MState where
  stepPinHigh : Bool
  dirPin : Bool
  enablePin : Bool
  current_pos : Nat
  busy_bit : Nat
  energyArray : Nat → Nat
  energyArray_idx : Nat
  command_idx : Nat

/-- `toggleStep` (lines 286-301): toggles the STEP latch; on the rising edge
it advances `current_pos` by one in the direction given by the DIRECTION
latch (the C reads `LPC_GPIO2->FIOSET`, which for an output pin returns the
latch written by `setDirection`), wrapping modulo `STEPS_PER_REV`. -/
def toggleStep (s : MState) : MState :=
  if s.stepPinHigh then { s with stepPinHigh := false }
  else
    { s with
      stepPinHigh := true
      current_pos :=
        if s.dirPin then (s.current_pos + 1) % STEPS_PER_REV
        else if 0 < s.current_pos then s.current_pos - 1 else STEPS_PER_REV - 1 }

/-- `setDirection` (lines 317-323): writes the DIRECTION latch. -/
def setDirection (direction : Bool) (s : MState) : MState := { s with dirPin := direction }

/-- `enableDrive` (lines 277-284): writes the ENABLE latch. -/
def enableDrive (state : Bool) (s : MState) : MState := { s with enablePin := state }

/-- The inner loop of `get_max_energy_pos` (lines 308-312), compiled with the
remaining iteration count `n = ENERGY_SAMPLES - cur_sample_idx` as fuel:
`if (energyArray[cur] > energyArray[max]) max = cur; cur++`. -/
def max_energy_loop (arr : Nat → Nat) : Nat → Nat → Nat → Nat
  | maxIdx, _cur, 0 => maxIdx
  | maxIdx, cur, n + 1 =>
    max_energy_loop arr (if arr maxIdx < arr cur then cur else maxIdx) (cur + 1) n

/-- `get_max_energy_pos` (lines 303-315): first index of the strictly greatest
of the first `ENERGY_SAMPLES` buffer entries, times `ADC_SAMPLE_PERIOD / 2`,
truncated to the `uint8_t` return type. -/
def get_max_energy_pos (arr : Nat → Nat) : Nat :=
  max_energy_loop arr 0 0 ENERGY_SAMPLES * (ADC_SAMPLE_PERIOD / 2) % 256

/-- The SCAN sweep loop of `motion_task` (lines 357-373), compiled with the
remaining `steps_todo` as fuel. `flag` is `adc_sample_flag`; `t` counts the
ADC reads already consumed from `raw`. On `flag % ADC_SAMPLE_PERIOD == 0` the
averaged reading is stored at `energyArray[energyArray_idx++]`; every
iteration then calls `toggleStep`. Returns the final state and the list of
states after each iteration (`vTaskDelay` has no effect on this state). -/
def scan_sweep (raw : Nat → Nat) : Nat → Nat → Nat → MState → MState × List MState
  | 0, _flag, _t, s => (s, [])
  | n + 1, flag, t, s =>
    let s1 :=
      if flag % ADC_SAMPLE_PERIOD = 0 then
        { s with
          energyArray := Function.update s.energyArray s.energyArray_idx (scan_adc_average raw t)
          energyArray_idx := s.energyArray_idx + 1 }
      else s
    let t1 := if flag % ADC_SAMPLE_PERIOD = 0 then t + ADC_AVERAGE_DEPTH else t
    let s2 := toggleStep s1
    let r := scan_sweep raw n (flag + 1) t1 s2
    (r.1, s2 :: r.2)

/-- The plain stepping loops `while (steps_todo > 0) { toggleStep(); steps_todo--;
vTaskDelay(current_speed); }` of the post-scan seek (lines 380-384) and of the
MOVE case (lines 398-402), with the iteration count as fuel. Returns the final
state and the states after each iteration. -/
def step_loop : Nat → MState → MState × List MState
  | 0, s => (s, [])
  | n + 1, s =>
    let s1 := toggleStep s
    let r := step_loop n s1
    (r.1, s1 :: r.2)

/-- One iteration of the `motion_task` loop body after a word `rx` is dequeued
(lines 346-410): the `switch (CMD_UNPACK(rx))` plus the trailing
`if (busy_bit == 0) command = commandSequence[command_idx++]`. Returns the
final state and the trace of states between the dequeue and the completion
(`busy_bit` is cleared only in the final state, after the trace). -/
def motion_handle (raw : Nat → Nat) (rx : Nat) (s : MState) : MState × List MState :=
  if CMD_UNPACK rx = WIFI_CMD_SCAN then
    let s1 : MState := { s with busy_bit := 1, energyArray_idx := 0 }
    let s2 : MState := setDirection CW (enableDrive DRIVE_ON s1)
    let r1 := scan_sweep raw STEPS_FULL_REV 0 0 s2
    let delta : Int := (get_max_energy_pos r1.1.energyArray : Int) - (r1.1.current_pos : Int)
    let s4 : MState := setDirection (if 0 < delta then CW else CCW) r1.1
    let r2 := step_loop delta.toNat s4
    let s6 : MState := { r2.1 with busy_bit := 0 }
    let s7 : MState := if s6.busy_bit = 0 then { s6 with command_idx := s6.command_idx + 1 } else s6
    (s7, s1 :: s2 :: (r1.2 ++ s4 :: r2.2))
  else if CMD_UNPACK rx = WIFI_CMD_MOVE then
    let s1 : MState := { s with busy_bit := 1 }
    let steps : Int := int8_wrap (PARAM1_UNPACK rx)
    let s2 : MState := if 0 < steps then setDirection CW s1 else setDirection CCW s1
    let steps2 : Int := int8_wrap (steps.natAbs : Int)
    let r := step_loop steps2.toNat s2
    let s4 : MState := { r.1 with busy_bit := 0 }
    let s5 : MState := if s4.busy_bit = 0 then { s4 with command_idx := s4.command_idx + 1 } else s4
    (s5, s1 :: s2 :: r.2)
  else
    let s' : MState := if s.busy_bit = 0 then { s with command_idx := s.command_idx + 1 } else s
    (s', [])

/-! ## Constant unfolding lemmas -/

lemma ADC_SAMPLE_PERIOD_eq : ADC_SAMPLE_PERIOD = 40 := rfl

lemma ENERGY_SAMPLES_eq : ENERGY_SAMPLES = 10 := rfl

lemma STEPS_PER_REV_eq : STEPS_PER_REV = 200 := rfl

lemma ADC_AVERAGE_DEPTH_eq : ADC_AVERAGE_DEPTH = 2000 := rfl

lemma STEPS_FULL_REV_eq : STEPS_FULL_REV = 400 := rfl

/-! ## The max-energy loop computes the first argmax -/

lemma max_energy_loop_spec (arr : Nat → Nat) :
    ∀ (n cur maxIdx : Nat), cur + n = ENERGY_SAMPLES →
      maxIdx < ENERGY_SAMPLES →
      (∀ j, j < cur → arr j ≤ arr maxIdx) →
      (∀ j, j < maxIdx → arr j < arr maxIdx) →
      max_energy_loop arr maxIdx cur n < ENERGY_SAMPLES ∧
      (∀ j, j < ENERGY_SAMPLES → arr j ≤ arr (max_energy_loop arr maxIdx cur n)) ∧
      (∀ j, j < max_energy_loop arr maxIdx cur n →
        arr j < arr (max_energy_loop arr maxIdx cur n)) := by
  intro n
  induction n with
  | zero =>
    intro cur maxIdx hc hm hle hlt
    refine ⟨hm, ?_, hlt⟩
    intro j hj
    exact hle j (by omega)
  | succ k ih =>
    intro cur maxIdx hc hm hle hlt
    simp only [max_energy_loop]
    by_cases h : arr maxIdx < arr cur
    · rw [if_pos h]
      refine ih (cur + 1) cur (by omega) (by omega) ?_ ?_
      · intro j hj
        rcases Nat.lt_or_ge j cur with hj' | hj'
        · exact le_of_lt (lt_of_le_of_lt (hle j hj') h)
        · have : j = cur := by omega
          simp [this]
      · intro j hj
        exact lt_of_le_of_lt (hle j hj) h
    · rw [if_neg h]
      refine ih (cur + 1) maxIdx (by omega) hm ?_ hlt
      intro j hj
      rcases Nat.lt_or_ge j cur with hj' | hj'
      · exact hle j hj'
      · have : j = cur := by omega
        simp only [this]
        exact Nat.not_lt.mp h

/-- C5: for a buffer of `ENERGY_SAMPLES` averaged readings, `get_max_energy_pos`
returns `(ADC_SAMPLE_PERIOD / 2) * m` where `m` is the first index holding the
strictly greatest value: `arr m` is maximal among the first `ENERGY_SAMPLES`
entries and every earlier entry is strictly smaller. -/
theorem get_max_energy_pos_first_argmax (arr : Nat → Nat) :
    ∃ m, m < ENERGY_SAMPLES ∧ (∀ j, j < ENERGY_SAMPLES → arr j ≤ arr m) ∧
      (∀ j, j < m → arr j < arr m) ∧
      get_max_energy_pos arr = ADC_SAMPLE_PERIOD / 2 * m := by
  obtain ⟨hlt, hmax, hfirst⟩ :=
    max_energy_loop_spec arr ENERGY_SAMPLES 0 0 (by omega)
      (by rw [ENERGY_SAMPLES_eq]; omega) (by omega) (by omega)
  refine ⟨max_energy_loop arr 0 0 ENERGY_SAMPLES, hlt, hmax, hfirst, ?_⟩
  unfold get_max_energy_pos
  rw [ADC_SAMPLE_PERIOD_eq, ENERGY_SAMPLES_eq] at *
  rw [Nat.mod_eq_of_lt (by omega)]
  omega

/-! ## C6: position wrap-around in `toggleStep` -/

/-- C6: position stays in `[0, STEPS_PER_REV)` across every `toggleStep`, a
rising-edge (pin-low) toggle in the clockwise direction from
`STEPS_PER_REV - 1` wraps to `0`, and a rising-edge toggle counter-clockwise
from `0` wraps to `STEPS_PER_REV - 1`. -/
theorem toggleStep_position_wrap (s1 s2 s3 : MState)
    (h1d : s1.dirPin = CW) (h1p : s1.stepPinHigh = false)
    (h1 : s1.current_pos = STEPS_PER_REV - 1)
    (h2d : s2.dirPin = CCW) (h2p : s2.stepPinHigh = false) (h2 : s2.current_pos = 0)
    (h3 : s3.current_pos < STEPS_PER_REV) :
    (toggleStep s1).current_pos = 0 ∧
    (toggleStep s2).current_pos = STEPS_PER_REV - 1 ∧
    (toggleStep s3).current_pos < STEPS_PER_REV := by
  unfold toggleStep
  rw [CW] at h1d
  rw [CCW] at h2d
  rw [STEPS_PER_REV_eq] at *
  refine ⟨?_, ?_, ?_⟩
  · simp [h1d, h1p, h1]
  · simp [h2d, h2p, h2]
  · split
    · exact h3
    · simp only
      split
      · omega
      · split <;> omega

theorem toggleStep_position_wrap_witness :
    (toggleStep ⟨false, true, false, 199, 0, fun _ => 0, 0, 0⟩).current_pos = 0 ∧
    (toggleStep ⟨false, false, false, 0, 0, fun _ => 0, 0, 0⟩).current_pos = STEPS_PER_REV - 1 ∧
    (toggleStep ⟨false, false, false, 0, 0, fun _ => 0, 0, 0⟩).current_pos < STEPS_PER_REV :=
  toggleStep_position_wrap ⟨false, true, false, 199, 0, fun _ => 0, 0, 0⟩
    ⟨false, false, false, 0, 0, fun _ => 0, 0, 0⟩
    ⟨false, false, false, 0, 0, fun _ => 0, 0, 0⟩
    rfl rfl (by rw [STEPS_PER_REV_eq]) rfl rfl rfl (by decide)

/-! ## C7: empty GIVE_STATUS at the master -/

/-- C7: when the master decodes a GIVE_STATUS packet with zero-length payload,
`wifi_pkt_decoding` returns the (non-zero) command value, sends nothing,
enqueues nothing, and leaves the protocol globals untouched. -/
theorem give_status_empty_rejected (src : Nat) (data : Nat → Nat) (sendOk queueOk : Bool)
    (raw : Nat → Nat) (g : CommState) (h : data 0 % 256 = WIFI_CMD_GIVE_STATUS) :
    (wifi_pkt_decoding WIFI_MASTER_ADDR sendOk queueOk raw g ⟨src, 0, data⟩).ret =
      WIFI_CMD_GIVE_STATUS ∧
    (wifi_pkt_decoding WIFI_MASTER_ADDR sendOk queueOk raw g ⟨src, 0, data⟩).ret ≠ 0 ∧
    (wifi_pkt_decoding WIFI_MASTER_ADDR sendOk queueOk raw g ⟨src, 0, data⟩).sends = [] ∧
    (wifi_pkt_decoding WIFI_MASTER_ADDR sendOk queueOk raw g ⟨src, 0, data⟩).motions = [] ∧
    (wifi_pkt_decoding WIFI_MASTER_ADDR sendOk queueOk raw g ⟨src, 0, data⟩).st = g := by
  unfold wifi_pkt_decoding
  simp [h, WIFI_CMD_REQPWR, WIFI_CMD_GET_STATUS, WIFI_CMD_GIVE_STATUS]

theorem give_status_empty_rejected_witness :
    (wifi_pkt_decoding WIFI_MASTER_ADDR true true (fun _ => 0) ⟨0, 0, 0, false⟩
      ⟨55, 0, fun _ => 2⟩).ret = WIFI_CMD_GIVE_STATUS ∧
    (wifi_pkt_decoding WIFI_MASTER_ADDR true true (fun _ => 0) ⟨0, 0, 0, false⟩
      ⟨55, 0, fun _ => 2⟩).ret ≠ 0 ∧
    (wifi_pkt_decoding WIFI_MASTER_ADDR true true (fun _ => 0) ⟨0, 0, 0, false⟩
      ⟨55, 0, fun _ => 2⟩).sends = [] ∧
    (wifi_pkt_decoding WIFI_MASTER_ADDR true true (fun _ => 0) ⟨0, 0, 0, false⟩
      ⟨55, 0, fun _ => 2⟩).motions = [] ∧
    (wifi_pkt_decoding WIFI_MASTER_ADDR true true (fun _ => 0) ⟨0, 0, 0, false⟩
      ⟨55, 0, fun _ => 2⟩).st = ⟨0, 0, 0, false⟩ :=
  give_status_empty_rejected 55 (fun _ => 2) true true (fun _ => 0) ⟨0, 0, 0, false⟩ (by decide)

/-! ## C10: MOVE decoding never checks the declared data length -/

/-- C10: for any packet whose command byte is MOVE, the dispatcher builds the
Motion Command Word from the bytes at fixed buffer indices 1 and 2 without
consulting the declared data length — even when that length is less than 3. -/
theorem move_ignores_data_len (myAddr src len : Nat) (data : Nat → Nat) (sendOk : Bool)
    (raw : Nat → Nat) (g : CommState)
    (h0 : data 0 % 256 = WIFI_CMD_MOVE) ( _hlen : len % 256 < 3) :
    (wifi_pkt_decoding myAddr sendOk true raw g ⟨src, len, data⟩).motions =
      [WIFI_CMD_MOVE <<< 24 ||| (data 1 % 256) <<< 16 ||| (data 2 % 256) <<< 8] := by
  unfold wifi_pkt_decoding
  simp [h0, WIFI_CMD_REQPWR, WIFI_CMD_GET_STATUS, WIFI_CMD_GIVE_STATUS, WIFI_CMD_CTL_DIR,
    WIFI_CMD_TERMINATE, WIFI_CMD_MOVE, WIFI_MOVE_IDX_PARAM1, WIFI_MOVE_IDX_PARAM2]

theorem move_ignores_data_len_witness :
    (wifi_pkt_decoding 7 true true (fun _ => 0) ⟨0, 0, 0, false⟩
      ⟨55, 1, fun i => if i = 0 then 6 else 77⟩).motions =
      [WIFI_CMD_MOVE <<< 24 ||| (77 % 256) <<< 16 ||| (77 % 256) <<< 8] :=
  move_ignores_data_len 7 55 1 (fun i => if i = 0 then 6 else 77) true (fun _ => 0)
    ⟨0, 0, 0, false⟩ (by decide) (by decide)

/-! ## C2: MOVE parameter sign round-trip -/

/-- C2: decoding a MOVE packet with first parameter byte `+5` enqueues exactly
one Motion Command Word whose unpacked command is MOVE and whose parameter,
read back through the `int8_t` cast done by `motion_task`, is `+5`; with the
byte encoding `-5` the parameter reads back as `-5`. -/
theorem move_param_sign_roundtrip :
    (wifi_pkt_decoding 7 true true (fun _ => 0) ⟨0, 0, 0, false⟩ movePktP5).motions.length = 1 ∧
    CMD_UNPACK ((wifi_pkt_decoding 7 true true (fun _ => 0) ⟨0, 0, 0, false⟩
      movePktP5).motions.headD 0) = WIFI_CMD_MOVE ∧
    int8_wrap (PARAM1_UNPACK ((wifi_pkt_decoding 7 true true (fun _ => 0) ⟨0, 0, 0, false⟩
      movePktP5).motions.headD 0)) = 5 ∧
    (wifi_pkt_decoding 7 true true (fun _ => 0) ⟨0, 0, 0, false⟩ movePktM5).motions.length = 1 ∧
    CMD_UNPACK ((wifi_pkt_decoding 7 true true (fun _ => 0) ⟨0, 0, 0, false⟩
      movePktM5).motions.headD 0) = WIFI_CMD_MOVE ∧
    int8_wrap (PARAM1_UNPACK ((wifi_pkt_decoding 7 true true (fun _ => 0) ⟨0, 0, 0, false⟩
      movePktM5).motions.headD 0)) = -5 :=
  ⟨by decide, by decide, by decide, by decide, by decide, by decide⟩

/-! ## C3: which situations yield a non-zero result code -/

/-- C3 (amended): the decoder's result code is non-zero exactly when a master
decodes a GIVE_STATUS packet with zero declared length, and the non-zero value
is the GIVE_STATUS command value; in particular send failures still return 0. -/
theorem decode_ret_nonzero_iff (myAddr : Nat) (sendOk queueOk : Bool) (raw : Nat → Nat)
    (g : CommState) (pkt : MeshPacket) :
    ((wifi_pkt_decoding myAddr sendOk queueOk raw g pkt).ret ≠ 0 ↔
      (myAddr = WIFI_MASTER_ADDR ∧ pkt.data 0 % 256 = WIFI_CMD_GIVE_STATUS ∧
        pkt.data_len % 256 = 0)) ∧
    ((wifi_pkt_decoding myAddr sendOk queueOk raw g pkt).ret = 0 ∨
      (wifi_pkt_decoding myAddr sendOk queueOk raw g pkt).ret = WIFI_CMD_GIVE_STATUS) := by
  simp only [wifi_pkt_decoding, apply_ite DecodeOut.ret]
  split_ifs <;>
    simp_all [WIFI_CMD_REQPWR, WIFI_CMD_GET_STATUS, WIFI_CMD_GIVE_STATUS, WIFI_CMD_CTL_DIR,
      WIFI_CMD_TERMINATE, WIFI_CMD_MOVE, WIFI_CMD_SCAN]

/-- C3 (counterexample to the claim as stated): the master handling a
REQUEST_POWER packet attempts the GET_STATUS reply, the send fails (and is
logged), yet the decoder still returns 0 — not a non-zero code. -/
theorem decode_sendfail_returns_zero :
    (wifi_pkt_decoding 100 false true (fun _ => 0) ⟨0, 0, 0, false⟩
      ⟨55, 1, fun _ => 0⟩).ret = 0 ∧
    (wifi_pkt_decoding 100 false true (fun _ => 0) ⟨0, 0, 0, false⟩
      ⟨55, 1, fun _ => 0⟩).sends = [(55, [WIFI_CMD_GET_STATUS])] ∧
    (wifi_pkt_decoding 100 false true (fun _ => 0) ⟨0, 0, 0, false⟩
      ⟨55, 1, fun _ => 0⟩).errs = 1 := by
  decide

/-! ## Field-preservation lemmas for the motion primitives -/

lemma toggleStep_busy_bit (s : MState) : (toggleStep s).busy_bit = s.busy_bit := by
  unfold toggleStep; split <;> rfl

lemma toggleStep_energyArray (s : MState) : (toggleStep s).energyArray = s.energyArray := by
  unfold toggleStep; split <;> rfl

lemma toggleStep_energyArray_idx (s : MState) :
    (toggleStep s).energyArray_idx = s.energyArray_idx := by
  unfold toggleStep; split <;> rfl

lemma toggleStep_dirPin (s : MState) : (toggleStep s).dirPin = s.dirPin := by
  unfold toggleStep; split <;> rfl

lemma step_loop_busy_bit : ∀ (n : Nat) (s : MState),
    ((step_loop n s).1.busy_bit = s.busy_bit) ∧
    (∀ st ∈ (step_loop n s).2, st.busy_bit = s.busy_bit) := by
  intro n
  induction n with
  | zero => intro s; exact ⟨rfl, by simp [step_loop]⟩
  | succ k ih =>
    intro s
    simp only [step_loop, List.mem_cons]
    constructor
    · rw [(ih (toggleStep s)).1, toggleStep_busy_bit]
    · rintro st (rfl | hst)
      · exact toggleStep_busy_bit s
      · rw [(ih (toggleStep s)).2 st hst, toggleStep_busy_bit]

lemma step_loop_energy : ∀ (n : Nat) (s : MState),
    ((step_loop n s).1.energyArray = s.energyArray) ∧
    ((step_loop n s).1.energyArray_idx = s.energyArray_idx) := by
  intro n
  induction n with
  | zero => intro s; exact ⟨rfl, rfl⟩
  | succ k ih =>
    intro s
    simp only [step_loop]
    exact ⟨by rw [(ih (toggleStep s)).1, toggleStep_energyArray],
      by rw [(ih (toggleStep s)).2, toggleStep_energyArray_idx]⟩

lemma scan_sweep_busy (raw : Nat → Nat) : ∀ (n flag t : Nat) (s : MState),
    ((scan_sweep raw n flag t s).1.busy_bit = s.busy_bit) ∧
    (∀ st ∈ (scan_sweep raw n flag t s).2, st.busy_bit = s.busy_bit) := by
  intro n
  induction n with
  | zero => intro flag t s; exact ⟨rfl, by simp [scan_sweep]⟩
  | succ k ih =>
    intro flag t s
    simp only [scan_sweep, List.mem_cons]
    by_cases hf : flag % ADC_SAMPLE_PERIOD = 0
    · simp only [if_pos hf]
      constructor
      · rw [(ih _ _ _).1, toggleStep_busy_bit]
      · rintro st (rfl | hst)
        · rw [toggleStep_busy_bit]
        · rw [(ih _ _ _).2 st hst, toggleStep_busy_bit]
    · simp only [if_neg hf]
      constructor
      · rw [(ih _ _ _).1, toggleStep_busy_bit]
      · rintro st (rfl | hst)
        · exact toggleStep_busy_bit s
        · rw [(ih _ _ _).2 st hst, toggleStep_busy_bit]

/-! ## The sweep writes exactly one averaged sample per sampling-period pulse -/

lemma scan_sweep_energy (raw : Nat → Nat) : ∀ (n flag t : Nat) (s : MState),
    t = 2000 * s.energyArray_idx →
    s.energyArray_idx = (flag + 39) / 40 →
    ((scan_sweep raw n flag t s).1.energyArray_idx = (flag + n + 39) / 40) ∧
    (∀ j, (scan_sweep raw n flag t s).1.energyArray j =
      if s.energyArray_idx ≤ j ∧ j < (flag + n + 39) / 40 then scan_adc_average raw (2000 * j)
      else s.energyArray j) := by
  intro n
  induction n with
  | zero =>
    intro flag t s ht hidx
    refine ⟨by simp only [scan_sweep]; omega, ?_⟩
    intro j
    simp only [scan_sweep]
    rw [if_neg (by omega)]
  | succ k ih =>
    intro flag t s ht hidx
    simp only [scan_sweep]
    by_cases hf : flag % ADC_SAMPLE_PERIOD = 0
    · have hf40 : flag % 40 = 0 := hf
      simp only [if_pos hf]
      rw [ADC_AVERAGE_DEPTH_eq]
      set s1 : MState :=
        { s with
          energyArray := Function.update s.energyArray s.energyArray_idx (scan_adc_average raw t)
          energyArray_idx := s.energyArray_idx + 1 } with hs1
      have hidx1 : (toggleStep s1).energyArray_idx = s.energyArray_idx + 1 := by
        rw [toggleStep_energyArray_idx]
      have harr1 : (toggleStep s1).energyArray =
          Function.update s.energyArray s.energyArray_idx (scan_adc_average raw t) := by
        rw [toggleStep_energyArray]
      obtain ⟨ih1, ih2⟩ := ih (flag + 1) (t + 2000) (toggleStep s1)
        (by rw [hidx1]; omega) (by rw [hidx1]; omega)
      constructor
      · rw [ih1]; omega
      · intro j
        rw [ih2 j, hidx1, harr1, Function.update_apply]
        have hF : (flag + 1 + k + 39) / 40 = (flag + (k + 1) + 39) / 40 := by congr 1; omega
        rw [hF]
        by_cases hj : j = s.energyArray_idx
        · rw [if_neg (by omega), if_pos hj, if_pos (by constructor <;> omega)]
          rw [hj, ht]
        · rw [if_neg hj]
          by_cases hcond : s.energyArray_idx + 1 ≤ j ∧ j < (flag + (k + 1) + 39) / 40
          · rw [if_pos hcond, if_pos (by omega)]
          · rw [if_neg hcond, if_neg (by omega)]
    · have hf40 : ¬flag % 40 = 0 := hf
      simp only [if_neg hf]
      obtain ⟨ih1, ih2⟩ := ih (flag + 1) t (toggleStep s)
        (by rw [toggleStep_energyArray_idx]; omega)
        (by rw [toggleStep_energyArray_idx]; omega)
      constructor
      · rw [ih1]; omega
      · intro j
        rw [ih2 j, toggleStep_energyArray_idx, toggleStep_energyArray]
        have hF : (flag + 1 + k + 39) / 40 = (flag + (k + 1) + 39) / 40 := by congr 1; omega
        rw [hF]

/-! ## C9: each SCAN overwrites the energy buffer from the start -/

/-- C9: handling any SCAN Motion Command Word resets the buffer index and, on
completion, the buffer holds exactly `ENERGY_SAMPLES` entries written from
index 0 — entry `k` is the averaged reading taken at the `k`-th
sampling-period pulse — while entries at and beyond `ENERGY_SAMPLES` still
hold whatever they held before the scan (overwrite, never append). -/
theorem scan_overwrites_energy_buffer (raw : Nat → Nat) (rx : Nat) (s : MState)
    (h : CMD_UNPACK rx = WIFI_CMD_SCAN) :
    ((motion_handle raw rx s).1.energyArray_idx = ENERGY_SAMPLES) ∧
    (∀ k, k < ENERGY_SAMPLES →
      (motion_handle raw rx s).1.energyArray k = scan_adc_average raw (ADC_AVERAGE_DEPTH * k)) ∧
    (∀ j, ENERGY_SAMPLES ≤ j → (motion_handle raw rx s).1.energyArray j = s.energyArray j) := by
  unfold motion_handle
  rw [if_pos h]
  dsimp only
  rw [if_pos rfl]
  obtain ⟨he1, he2⟩ := scan_sweep_energy raw STEPS_FULL_REV 0 0
    (setDirection CW (enableDrive DRIVE_ON { s with busy_bit := 1, energyArray_idx := 0 }))
    (by rfl) (by rfl)
  dsimp only [setDirection, enableDrive] at he1 he2 ⊢
  have hF : (0 + STEPS_FULL_REV + 39) / 40 = 10 := by rw [STEPS_FULL_REV_eq]
  rw [hF] at he1 he2
  refine ⟨?_, ?_, ?_⟩
  · rw [(step_loop_energy _ _).2]
    dsimp only
    rw [he1, ENERGY_SAMPLES_eq]
  · intro k hk
    rw [ENERGY_SAMPLES_eq] at hk
    rw [(step_loop_energy _ _).1]
    dsimp only
    rw [he2 k, if_pos (by exact ⟨Nat.zero_le k, hk⟩), ADC_AVERAGE_DEPTH_eq]
  · intro j hj
    rw [ENERGY_SAMPLES_eq] at hj
    rw [(step_loop_energy _ _).1]
    dsimp only
    rw [he2 j, if_neg (by omega)]

theorem scan_overwrites_energy_buffer_witness :
    ((motion_handle (fun _ => 3) (WIFI_CMD_SCAN <<< 24)
      ⟨false, false, false, 0, 0, fun _ => 7, 5, 0⟩).1.energyArray_idx = ENERGY_SAMPLES) ∧
    ((motion_handle (fun _ => 3) (WIFI_CMD_SCAN <<< 24)
      ⟨false, false, false, 0, 0, fun _ => 7, 5, 0⟩).1.energyArray 3 =
      scan_adc_average (fun _ => 3) (ADC_AVERAGE_DEPTH * 3)) ∧
    ((motion_handle (fun _ => 3) (WIFI_CMD_SCAN <<< 24)
      ⟨false, false, false, 0, 0, fun _ => 7, 5, 0⟩).1.energyArray 12 =
      (⟨false, false, false, 0, 0, fun _ => 7, 5, 0⟩ : MState).energyArray 12) :=
  ⟨(scan_overwrites_energy_buffer (fun _ => 3) (WIFI_CMD_SCAN <<< 24)
      ⟨false, false, false, 0, 0, fun _ => 7, 5, 0⟩ (by decide)).1,
   (scan_overwrites_energy_buffer (fun _ => 3) (WIFI_CMD_SCAN <<< 24)
      ⟨false, false, false, 0, 0, fun _ => 7, 5, 0⟩ (by decide)).2.1 3 (by decide),
   (scan_overwrites_energy_buffer (fun _ => 3) (WIFI_CMD_SCAN <<< 24)
      ⟨false, false, false, 0, 0, fun _ => 7, 5, 0⟩ (by decide)).2.2 12 (by decide)⟩

/-! ## C8: the busy flag brackets every SCAN/MOVE execution -/

/-- C8: starting from an idle controller (`busy_bit = 0`, as immediately before
the dequeue), every state reached between dequeuing a Motion Command Word and
that command's completion has `busy_bit = 1`, and the state after completion
has `busy_bit = 0` again. -/
theorem busy_during_motion (raw : Nat → Nat) (rx : Nat) (s : MState) (h : s.busy_bit = 0) :
    (∀ st ∈ (motion_handle raw rx s).2, st.busy_bit = 1) ∧
    (motion_handle raw rx s).1.busy_bit = 0 := by
  unfold motion_handle
  by_cases h5 : CMD_UNPACK rx = WIFI_CMD_SCAN
  · rw [if_pos h5]
    dsimp only
    rw [if_pos rfl]
    constructor
    · intro st hst
      simp only [List.mem_cons, List.mem_append] at hst
      rcases hst with rfl | rfl | hst | rfl | hst
      · rfl
      · rfl
      · rw [(scan_sweep_busy raw _ _ _ _).2 st hst]
        rfl
      · dsimp only [setDirection]
        rw [(scan_sweep_busy raw _ _ _ _).1]
        rfl
      · rw [(step_loop_busy_bit _ _).2 st hst]
        dsimp only [setDirection]
        rw [(scan_sweep_busy raw _ _ _ _).1]
        rfl
    · rfl
  · rw [if_neg h5]
    by_cases h6 : CMD_UNPACK rx = WIFI_CMD_MOVE
    · rw [if_pos h6]
      dsimp only
      by_cases hpos : (0 : Int) < int8_wrap (PARAM1_UNPACK rx)
      · rw [if_pos hpos, if_pos rfl]
        constructor
        · intro st hst
          simp only [List.mem_cons] at hst
          rcases hst with rfl | rfl | hst
          · rfl
          · rfl
          · rw [(step_loop_busy_bit _ _).2 st hst]
            rfl
        · rfl
      · rw [if_neg hpos, if_pos rfl]
        constructor
        · intro st hst
          simp only [List.mem_cons] at hst
          rcases hst with rfl | rfl | hst
          · rfl
          · rfl
          · rw [(step_loop_busy_bit _ _).2 st hst]
            rfl
        · rfl
    · rw [if_neg h6]
      dsimp only
      rw [if_pos h]
      exact ⟨by simp, h⟩

theorem busy_during_motion_witness :
    (motion_handle (fun _ => 0) (WIFI_CMD_MOVE <<< 24 ||| 3 <<< 16)
      ⟨false, false, false, 0, 0, fun _ => 0, 0, 0⟩).1.busy_bit = 0 :=
  (busy_during_motion (fun _ => 0) (WIFI_CMD_MOVE <<< 24 ||| 3 <<< 16)
    ⟨false, false, false, 0, 0, fun _ => 0, 0, 0⟩ rfl).2

/-! ## C4: the post-scan seek never steps on a non-positive delta -/

lemma toggleStep_fall (s : MState) (hp : s.stepPinHigh = true) :
    toggleStep s = { s with stepPinHigh := false } := by
  unfold toggleStep
  rw [if_pos hp]

lemma toggleStep_rise_cw (s : MState) (hp : s.stepPinHigh = false) (hd : s.dirPin = true) :
    toggleStep s =
      { s with stepPinHigh := true, current_pos := (s.current_pos + 1) % STEPS_PER_REV } := by
  unfold toggleStep
  rw [if_neg (by simp [hp]), if_pos hd]

lemma toggleStep_twice_cw (s : MState) (hp : s.stepPinHigh = false) (hd : s.dirPin = true) :
    toggleStep (toggleStep s) =
      { s with current_pos := (s.current_pos + 1) % STEPS_PER_REV } := by
  rw [toggleStep_rise_cw s hp hd]
  rw [toggleStep_fall
    { s with stepPinHigh := true, current_pos := (s.current_pos + 1) % STEPS_PER_REV } rfl]
  simp [hp]

lemma step_loop_pos_cw : ∀ (k : Nat) (s : MState),
    s.stepPinHigh = false → s.dirPin = true → s.current_pos < STEPS_PER_REV →
    ((step_loop (2 * k) s).1.current_pos = (s.current_pos + k) % STEPS_PER_REV) ∧
    ((step_loop (2 * k) s).1.stepPinHigh = false) ∧
    ((step_loop (2 * k) s).1.dirPin = true) := by
  intro k
  induction k with
  | zero =>
    intro s hp hd hlt
    simp only [Nat.mul_zero, step_loop]
    exact ⟨by rw [Nat.add_zero, Nat.mod_eq_of_lt hlt], hp, hd⟩
  | succ k ih =>
    intro s hp hd hlt
    have h2 : 2 * (k + 1) = 2 * k + 1 + 1 := by ring
    rw [h2]
    simp only [step_loop]
    rw [toggleStep_twice_cw s hp hd]
    obtain ⟨ihp, ihh, ihd⟩ := ih { s with current_pos := (s.current_pos + 1) % STEPS_PER_REV }
      hp hd (by dsimp only; rw [STEPS_PER_REV_eq]; omega)
    refine ⟨?_, ihh, ihd⟩
    rw [ihp]
    dsimp only
    rw [STEPS_PER_REV_eq] at *
    omega

lemma scan_sample_write_motion (raw : Nat → Nat) (flag t : Nat) (s : MState) :
    ((if flag % ADC_SAMPLE_PERIOD = 0 then
      { s with
        energyArray := Function.update s.energyArray s.energyArray_idx (scan_adc_average raw t)
        energyArray_idx := s.energyArray_idx + 1 }
     else s).current_pos = s.current_pos) ∧
    ((if flag % ADC_SAMPLE_PERIOD = 0 then
      { s with
        energyArray := Function.update s.energyArray s.energyArray_idx (scan_adc_average raw t)
        energyArray_idx := s.energyArray_idx + 1 }
     else s).stepPinHigh = s.stepPinHigh) ∧
    ((if flag % ADC_SAMPLE_PERIOD = 0 then
      { s with
        energyArray := Function.update s.energyArray s.energyArray_idx (scan_adc_average raw t)
        energyArray_idx := s.energyArray_idx + 1 }
     else s).dirPin = s.dirPin) := by
  refine ⟨?_, ?_, ?_⟩ <;> split <;> rfl

lemma toggleStep_motion_congr (a b : MState) (hpos : a.current_pos = b.current_pos)
    (hpin : a.stepPinHigh = b.stepPinHigh) (hdir : a.dirPin = b.dirPin) :
    ((toggleStep a).current_pos = (toggleStep b).current_pos) ∧
    ((toggleStep a).stepPinHigh = (toggleStep b).stepPinHigh) ∧
    ((toggleStep a).dirPin = (toggleStep b).dirPin) := by
  unfold toggleStep
  simp only [apply_ite MState.current_pos, apply_ite MState.stepPinHigh, apply_ite MState.dirPin]
  rw [hpos, hpin, hdir]
  exact ⟨rfl, rfl, rfl⟩

lemma step_loop_motion_congr : ∀ (n : Nat) (a b : MState),
    a.current_pos = b.current_pos → a.stepPinHigh = b.stepPinHigh → a.dirPin = b.dirPin →
    ((step_loop n a).1.current_pos = (step_loop n b).1.current_pos) ∧
    ((step_loop n a).1.stepPinHigh = (step_loop n b).1.stepPinHigh) ∧
    ((step_loop n a).1.dirPin = (step_loop n b).1.dirPin) := by
  intro n
  induction n with
  | zero => intro a b h1 h2 h3; exact ⟨h1, h2, h3⟩
  | succ k ih =>
    intro a b h1 h2 h3
    simp only [step_loop]
    obtain ⟨g1, g2, g3⟩ := toggleStep_motion_congr a b h1 h2 h3
    exact ih (toggleStep a) (toggleStep b) g1 g2 g3

lemma scan_sweep_motion (raw : Nat → Nat) : ∀ (n flag t : Nat) (s : MState),
    ((scan_sweep raw n flag t s).1.current_pos = (step_loop n s).1.current_pos) ∧
    ((scan_sweep raw n flag t s).1.stepPinHigh = (step_loop n s).1.stepPinHigh) ∧
    ((scan_sweep raw n flag t s).1.dirPin = (step_loop n s).1.dirPin) := by
  intro n
  induction n with
  | zero => intro flag t s; exact ⟨rfl, rfl, rfl⟩
  | succ k ih =>
    intro flag t s
    simp only [scan_sweep, step_loop]
    obtain ⟨w1p, w1h, w1d⟩ := scan_sample_write_motion raw flag t s
    obtain ⟨g1, g2, g3⟩ := toggleStep_motion_congr _ _ w1p w1h w1d
    obtain ⟨i1, i2, i3⟩ := ih (flag + 1)
      (if flag % ADC_SAMPLE_PERIOD = 0 then t + ADC_AVERAGE_DEPTH else t)
      (toggleStep
        (if flag % ADC_SAMPLE_PERIOD = 0 then
          { s with
            energyArray := Function.update s.energyArray s.energyArray_idx (scan_adc_average raw t)
            energyArray_idx := s.energyArray_idx + 1 }
         else s))
    obtain ⟨j1, j2, j3⟩ := step_loop_motion_congr k _ _ g1 g2 g3
    exact ⟨i1.trans j1, i2.trans j2, i3.trans j3⟩

lemma adc_accum_u32_zero : ∀ (t n : Nat), adc_accum_u32 (fun _ => 0) t n = 0 := by
  intro t n
  induction n with
  | zero => rfl
  | succ k ih => simp [adc_accum_u32, adc0_reading, ih]

lemma scan_adc_average_zero (t : Nat) : scan_adc_average (fun _ => 0) t = 0 := by
  unfold scan_adc_average
  rw [adc_accum_u32_zero]
  exact Nat.zero_div _

lemma get_max_energy_pos_zero (arr : Nat → Nat) (h : ∀ j, j < ENERGY_SAMPLES → arr j = 0) :
    get_max_energy_pos arr = 0 := by
  obtain ⟨hm, hle, hlt⟩ := max_energy_loop_spec arr ENERGY_SAMPLES 0 0 (by omega)
    (by rw [ENERGY_SAMPLES_eq]; omega) (by omega) (by omega)
  unfold get_max_energy_pos
  have hm0 : max_energy_loop arr 0 0 ENERGY_SAMPLES = 0 := by
    by_contra hne
    have h0 : (0 : Nat) < max_energy_loop arr 0 0 ENERGY_SAMPLES := Nat.pos_of_ne_zero hne
    have hcon := hlt 0 h0
    rw [h 0 (by rw [ENERGY_SAMPLES_eq]; omega), h _ hm] at hcon
    exact absurd hcon (lt_irrefl 0)
  rw [hm0]
  simp

/-- C4 (code evidence): a SCAN with uniformly zero ADC readings, started from
any pin-low state whose position is in range, computes best-energy offset 0
yet ends with the motor back at its starting position: the post-sweep seek
loop `while (steps_todo > 0)` issues zero pulses whenever the signed delta is
negative or zero, so the motor never returns to the best-energy position. -/
theorem scan_with_flat_energy_stalls (s : MState) (hpin : s.stepPinHigh = false)
    (hpos : s.current_pos < STEPS_PER_REV) :
    ((motion_handle (fun _ => 0) (WIFI_CMD_SCAN <<< 24) s).1.current_pos = s.current_pos) ∧
    (get_max_energy_pos
      ((motion_handle (fun _ => 0) (WIFI_CMD_SCAN <<< 24) s).1.energyArray) = 0) := by
  unfold motion_handle
  rw [if_pos (by decide)]
  dsimp only
  rw [if_pos rfl]
  obtain ⟨he1, he2⟩ := scan_sweep_energy (fun _ => 0) STEPS_FULL_REV 0 0
    (setDirection CW (enableDrive DRIVE_ON { s with busy_bit := 1, energyArray_idx := 0 }))
    (by rfl) (by rfl)
  dsimp only [setDirection, enableDrive] at he1 he2 ⊢
  have hF : (0 + STEPS_FULL_REV + 39) / 40 = 10 := by rw [STEPS_FULL_REV_eq]
  rw [hF] at he1 he2
  have hA : ∀ j, j < ENERGY_SAMPLES →
      (scan_sweep (fun _ => 0) STEPS_FULL_REV 0 0
        { stepPinHigh := s.stepPinHigh, dirPin := CW, enablePin := DRIVE_ON,
          current_pos := s.current_pos, busy_bit := 1, energyArray := s.energyArray,
          energyArray_idx := 0, command_idx := s.command_idx }).1.energyArray j = 0 := by
    intro j hj
    rw [ENERGY_SAMPLES_eq] at hj
    rw [he2 j, if_pos ⟨Nat.zero_le j, hj⟩, scan_adc_average_zero]
  have hgm := get_max_energy_pos_zero _ hA
  have hSWpos :
      (scan_sweep (fun _ => 0) STEPS_FULL_REV 0 0
        { stepPinHigh := s.stepPinHigh, dirPin := CW, enablePin := DRIVE_ON,
          current_pos := s.current_pos, busy_bit := 1, energyArray := s.energyArray,
          energyArray_idx := 0, command_idx := s.command_idx }).1.current_pos = s.current_pos := by
    have hmot := (scan_sweep_motion (fun _ => 0) STEPS_FULL_REV 0 0
      { stepPinHigh := s.stepPinHigh, dirPin := CW, enablePin := DRIVE_ON,
        current_pos := s.current_pos, busy_bit := 1, energyArray := s.energyArray,
        energyArray_idx := 0, command_idx := s.command_idx }).1
    rw [hmot, STEPS_FULL_REV_eq, show (400 : Nat) = 2 * 200 by norm_num]
    obtain ⟨hp, _, _⟩ := step_loop_pos_cw 200
      { stepPinHigh := s.stepPinHigh, dirPin := CW, enablePin := DRIVE_ON,
        current_pos := s.current_pos, busy_bit := 1, energyArray := s.energyArray,
        energyArray_idx := 0, command_idx := s.command_idx }
      hpin rfl (by dsimp only; exact hpos)
    rw [hp]
    dsimp only
    rw [STEPS_PER_REV_eq] at *
    omega
  rw [hgm, hSWpos]
  rw [if_neg (by omega)]
  have ht0 : (((0 : Nat) : Int) - (s.current_pos : Int)).toNat = 0 := by omega
  rw [ht0]
  simp only [step_loop]
  exact ⟨trivial, hgm⟩

theorem scan_with_flat_energy_stalls_witness :
    ((motion_handle (fun _ => 0) (WIFI_CMD_SCAN <<< 24)
      ⟨false, false, false, 50, 0, fun _ => 0, 0, 0⟩).1.current_pos = 50) ∧
    (get_max_energy_pos ((motion_handle (fun _ => 0) (WIFI_CMD_SCAN <<< 24)
      ⟨false, false, false, 50, 0, fun _ => 0, 0, 0⟩).1.energyArray) = 0) :=
  scan_with_flat_energy_stalls ⟨false, false, false, 50, 0, fun _ => 0, 0, 0⟩ rfl (by decide)

/-! ## C1: the Status Report is built from never-written globals -/

lemma adc_accum_u16_const : ∀ (c n : Nat),
    adc_accum_u16 (fun _ => c) n = c % 65536 * n % 65536 := by
  intro c n
  induction n with
  | zero => rfl
  | succ k ih =>
    show (adc_accum_u16 (fun _ => c) k + adc0_reading (fun _ => c) k) % 65536 = _
    rw [ih]
    unfold adc0_reading
    show (c % 65536 * k % 65536 + c % 65536) % 65536 = c % 65536 * (k + 1) % 65536
    rw [Nat.mul_succ]
    omega

/-- C1 (code evidence): with every raw ADC reading equal to 1000, the Status
Report sent by `wifi_slave_heartbeat` is `[GIVE_STATUS, 0, 0, 16, 0]`: the
error byte is the never-written `busy` global (always 0, regardless of the
motion controller's `busy_bit`), the ADC bytes encode 16 instead of the true
average 1000 (the 16-bit accumulator overflows), and the position byte is the
never-written `position` global (always 0, regardless of `current_pos`).
The second conjunct shows no `wifi_pkt_decoding` path ever writes the `busy`
or `position` globals the report is built from. -/
theorem heartbeat_reports_stale_status :
    ((wifi_slave_heartbeat (fun _ => 1000) ⟨0, 0, 0, false⟩).2 =
      (WIFI_MASTER_ADDR, [WIFI_CMD_GIVE_STATUS, 0, 0, 16, 0])) ∧
    (∀ (myAddr : Nat) (sendOk queueOk : Bool) (raw : Nat → Nat) (g : CommState)
      (pkt : MeshPacket),
      (wifi_pkt_decoding myAddr sendOk queueOk raw g pkt).st.busy = g.busy ∧
      (wifi_pkt_decoding myAddr sendOk queueOk raw g pkt).st.position = g.position) := by
  constructor
  · unfold wifi_slave_heartbeat
    rw [adc_accum_u16_const]
    decide
  · intro myAddr sendOk queueOk raw g pkt
    refine ⟨?_, ?_⟩ <;>
    · simp only [wifi_pkt_decoding, wifi_slave_heartbeat, apply_ite DecodeOut.st]
      split_ifs <;> rfl
